import Mathlib

/-!
Shallow embedding of `server/autolinkplugin/config.go` from
mattermost-plugin-autolink: the configuration-state manager of the
autolink plugin.  Go structs become Lean structures, the host plugin API
becomes a record of pure result-valued fields, side effects (log lines,
identity lookups, command registration attempts) are made explicit as
trace lists, and fallible Go functions return `Except`.
-/

namespace AutolinkPlugin

/-! Go string primitives:

`strings.Split`, `strings.TrimSpace` and `strings.Compare` are modelled
over the character list of a string so that every definition evaluates by
kernel reduction. -/

/-- Go `unicode.IsSpace` restricted to the ASCII whitespace characters
(space, tab, newline, vertical tab, form feed, carriage return); the
configuration strings of this plugin are ASCII. -/
def isSpaceChar (c : Char) : Bool :=
  c = ' ' || c = '\t' || c = '\n' || c = '\x0b' || c = '\x0c' || c = '\r'

/-- Drop leading characters satisfying `isSpaceChar`. -/
def dropSpaces : List Char → List Char
  | [] => []
  | c :: rest => if isSpaceChar c then dropSpaces rest else c :: rest

/-- Go `strings.TrimSpace`: remove leading and trailing whitespace. -/
def goTrimSpace (s : String) : String :=
  String.mk (((dropSpaces s.toList).reverse |> dropSpaces).reverse)

/-- Accumulating worker for `goSplit`: `cur` holds the current field in
reverse order. -/
def goSplitAux (sep : Char) : List Char → List Char → List (List Char)
  | [], cur => [cur.reverse]
  | c :: rest, cur =>
    if c = sep then cur.reverse :: goSplitAux sep rest []
    else goSplitAux sep rest (c :: cur)

/-- Go `strings.Split` with a one-character separator (the code splits on
`","`): the list of fields between consecutive separators, so `n`
separators yield `n + 1` fields and the empty string yields `[""]`. -/
def goSplit (s : String) (sep : Char) : List String :=
  (goSplitAux sep s.toList []).map String.mk

/-- Go `strings.Compare(a, b) < 0`: strict lexicographic byte order. -/
def ltChars : List Char → List Char → Bool
  | [], [] => false
  | [], _ :: _ => true
  | _ :: _, [] => false
  | a :: as, b :: bs => if a = b then ltChars as bs else decide (a < b)

/-- Insertion into a Go `map[string]struct\x7b\x7d` used as a set: a new key is
appended, an existing key is overwritten (a no-op for a set). -/
def setInsert (k : String) (m : List String) : List String :=
  if k ∈ m then m else m ++ [k]

/-- Modelled from the spec: `autolink.Autolink` (the RuleDescriptor) lives in a
package outside the available source.  Per the spec it is "a single autolink
definition (pattern, replacement template, matching options); compiled before
use", carrying a display name used for sorting/listing.  `compileOk` abstracts
whether the descriptor's pattern is accepted by the external regex engine (in
the real code this is a function of the descriptor's own fields); the cached
compiled form is internal to the external engine and not observable here. -/
structure Autolink where
  Name : String
  Pattern : String
  Template : String
  compileOk : Bool
deriving DecidableEq, Repr

/-- Modelled from the spec: the rule display name is "derived from each rule's
own state" and used for sorting and listing. -/
def Autolink.DisplayName (l : Autolink) : String :=
  if l.Name ≠ "" then l.Name else l.Pattern

/-- Modelled from the spec: the external compile step of a RuleDescriptor.
It fails exactly when the pattern is not accepted by the regex engine and
otherwise leaves the descriptor's observable data unchanged (the compiled
form is cached internally by the external engine). -/
def Autolink.Compile (l : Autolink) : Except String Autolink :=
  if l.compileOk then Except.ok l else Except.error "invalid pattern"

/-- Struct `Config` from `config.go`: the configuration snapshot.  `AdminUserIds`
(a Go `map[string]struct\x7b\x7d` used as a set) is modelled as a duplicate-free
`List String` built with `setInsert`; its `json:"-"` tag (excluded from the
persisted shape) is reflected in `ToMap` below. -/
structure Config where
  EnableAdminCommand : Bool
  EnableOnUpdate : Bool
  PluginAdmins : String
  Links : List Autolink
  AdminUserIds : List String
deriving DecidableEq

/-- The plugin object: `p.conf` guarded by `p.confLock`.  The lock is a
coordination primitive with no sequential content, so the sequential
embedding keeps only the configuration it guards. -/
structure Plugin where
  conf : Config
deriving DecidableEq

/-- Decidable equality of host-call results. -/
def exceptDecEq {ε α : Type} [DecidableEq ε] [DecidableEq α] :
    DecidableEq (Except ε α)
  | Except.error a, Except.error b =>
    if h : a = b then Decidable.isTrue (h ▸ rfl)
    else Decidable.isFalse (fun hc => h (Except.error.inj hc))
  | Except.error _, Except.ok _ =>
    Decidable.isFalse (fun hc => Except.noConfusion hc)
  | Except.ok _, Except.error _ =>
    Decidable.isFalse (fun hc => Except.noConfusion hc)
  | Except.ok a, Except.ok b =>
    if h : a = b then Decidable.isTrue (h ▸ rfl)
    else Decidable.isFalse (fun hc => h (Except.ok.inj hc))

instance {ε α : Type} [DecidableEq ε] [DecidableEq α] :
    DecidableEq (Except ε α) := exceptDecEq

/-- Returns `true` exactly on `Except.ok`: whether a host call succeeded. -/
def isOkB {ε α : Type} : Except ε α → Bool
  | Except.ok _ => true
  | Except.error _ => false

/-- The loop body of `parsePluginAdminList`: for each comma-separated token,
trim it, call `api.GetUser` on the trimmed token, log a warning and skip it
on error, insert it into the admin set on success.  Returns the final set
together with the list of lookup calls made (in order) and the list of
warning log lines emitted (in order). -/
def adminLoop (getUser : String → Except String Unit) :
    List String → List String → List String × List String × List String
  | [], acc => (acc, [], [])
  | raw :: rest, acc =>
    let userID := goTrimSpace raw
    match getUser userID with
    | Except.error _ =>
      let r := adminLoop getUser rest acc
      (r.1, userID :: r.2.1,
        ("Error occurred while verifying userID " ++ userID) :: r.2.2)
    | Except.ok _ =>
      let r := adminLoop getUser rest (setInsert userID acc)
      (r.1, userID :: r.2.1, r.2.2)

/-- Result of `parsePluginAdminList`: the updated configuration, the
identity-lookup calls performed (trimmed tokens, in order), and the warning
log lines emitted. -/
structure AdminParseResult where
  conf : Config
  lookups : List String
  warns : List String
deriving DecidableEq

/-- Function `parsePluginAdminList` from `config.go`: resets `AdminUserIds` to a fresh
empty set, returns immediately when `PluginAdmins` is the empty string, and
otherwise splits `PluginAdmins` on commas and runs `adminLoop` over the
tokens. -/
def parsePluginAdminList (getUser : String → Except String Unit)
    (conf : Config) : AdminParseResult :=
  let conf0 := { conf with AdminUserIds := [] }
  if conf0.PluginAdmins = "" then ⟨conf0, [], []⟩
  else
    let r := adminLoop getUser (goSplit conf0.PluginAdmins ',') []
    ⟨{ conf0 with AdminUserIds := r.1 }, r.2.1, r.2.2⟩

/-! Transport map (`ToMap`) and the host's structured reload. -/

/-- Generic JSON-style value: the untyped tree produced by
`json.Marshal` / `json.Unmarshal` into `map[string]interface\x7b\x7d`. -/
inductive JValue where
  | jbool : Bool → JValue
  | jstr : String → JValue
  | jarr : List JValue → JValue
  | jobj : List (String × JValue) → JValue

/-- Association lookup in a JSON object, first binding wins (Go maps have
unique keys, so the encodings built here never have duplicates). -/
def lookupJ : List (String × JValue) → String → Option JValue
  | [], _ => none
  | (k, v) :: rest, key => if k = key then some v else lookupJ rest key

/-- Modelled from the spec: the JSON encoding of a RuleDescriptor (the
`autolink` package is outside the available source).  All of the
descriptor's own data is part of the persisted shape; `compileOk` stands in
for the pattern-validity information that in the real code is a function of
the persisted `Pattern` field. -/
def encodeAutolink (l : Autolink) : JValue :=
  JValue.jobj [("Name", JValue.jstr l.Name),
    ("Pattern", JValue.jstr l.Pattern),
    ("Template", JValue.jstr l.Template),
    ("PatternValid", JValue.jbool l.compileOk)]

/-- Modelled from the spec: the host-side structured decode of one
RuleDescriptor, inverse of `encodeAutolink` on well-formed objects. -/
def decodeAutolink : JValue → Option Autolink
  | JValue.jobj fields =>
    match lookupJ fields "Name", lookupJ fields "Pattern",
        lookupJ fields "Template", lookupJ fields "PatternValid" with
    | some (JValue.jstr n), some (JValue.jstr pat),
        some (JValue.jstr t), some (JValue.jbool ok) => some ⟨n, pat, t, ok⟩
    | _, _, _, _ => none
  | _ => none

/-- Decode a JSON array of rule descriptors elementwise. -/
def decodeLinkList : List JValue → Option (List Autolink)
  | [] => some []
  | v :: rest =>
    match decodeAutolink v, decodeLinkList rest with
    | some l, some ls => some (l :: ls)
    | _, _ => none

/-- Method `ToMap` from `config.go`: `json.Marshal` the config, then `json.Unmarshal`
into a generic map.  The struct's json tags name the keys
`enableadmincommand`, `enableonupdate`, `pluginadmins`, `links`;
`AdminUserIds` carries the tag `json:"-"` and is therefore absent.
Marshalling a tree of bools, strings and string-field structs cannot fail,
so the error branch of the Go signature is never taken. -/
def Config.ToMap (conf : Config) :
    Except String (List (String × JValue)) :=
  Except.ok [("enableadmincommand", JValue.jbool conf.EnableAdminCommand),
    ("enableonupdate", JValue.jbool conf.EnableOnUpdate),
    ("pluginadmins", JValue.jstr conf.PluginAdmins),
    ("links", JValue.jarr (conf.Links.map encodeAutolink))]

/-- Modelled from the spec: the host's structured reload
(`FromTransportMap` "is the external store's responsibility, not this
core's").  It decodes the wire shape with keys `enableadmincommand`,
`enableonupdate`, `pluginadmins`, `links` and leaves the derived
`AdminUserIds` set empty (in Go a fresh struct has a nil map). -/
def FromMap (m : List (String × JValue)) : Option Config :=
  match lookupJ m "enableadmincommand", lookupJ m "enableonupdate",
      lookupJ m "pluginadmins", lookupJ m "links" with
  | some (JValue.jbool a), some (JValue.jbool b),
      some (JValue.jstr s), some (JValue.jarr ls) =>
    match decodeLinkList ls with
    | some links => some ⟨a, b, s, links, []⟩
    | none => none
  | _, _, _, _ => none

/-! Method `Sorted` and the sort order it establishes. -/

/-- Insert a link into a list kept ordered by display name: models one step
of `sort.Slice` with comparator `strings.Compare(DisplayName i, DisplayName j) < 0`. -/
def insertByName (l : Autolink) : List Autolink → List Autolink
  | [] => [l]
  | x :: xs =>
    if ltChars x.DisplayName.toList l.DisplayName.toList then
      x :: insertByName l xs
    else l :: x :: xs

/-- Sort links alphabetically by display name (the order `sort.Slice`
establishes in `Sorted`; ties are left in an unspecified order by Go's
unstable sort, and insertion sort picks one such order). -/
def sortLinks : List Autolink → List Autolink
  | [] => []
  | l :: rest => insertByName l (sortLinks rest)

/-- Method `Sorted` from `config.go`.  The Go receiver is a pointer and
`sorted := conf` copies that pointer, so `sorted` and `conf` alias one
object: the freshly-copied slice is stored into the source object's `Links`
field, `sort.Slice` reorders it in place, and the function returns the very
same pointer it received.  The first component is the state of the source
object after the call; the second is the returned value.  They are one and
the same object in Go, hence equal here. -/
def Config.Sorted (conf : Config) : Config × Config :=
  let conf' := { conf with Links := sortLinks conf.Links }
  (conf', conf')

/-! The host API, the effect trace, and the orchestrator. -/

/-- The slice of the host plugin API that `config.go` calls, as pure data:
each field is the result the host returns for that call.
`loadPluginConfiguration` models `p.API.LoadPluginConfiguration(&c)`
(either the decoded configuration or a load error), `getUser` models
`p.API.GetUser`, `savePluginConfig` models `p.API.SavePluginConfig` on a
given transport map, and `registerCommand` / `unregisterCommand` model the
command-registration calls made from the async step. -/
structure HostAPI where
  loadPluginConfiguration : Except String Config
  getUser : String → Except String Unit
  savePluginConfig : List (String × JValue) → Except String Unit
  registerCommand : Except String Unit
  unregisterCommand : Except String Unit

/-- Explicit record of the side effects of one `OnConfigurationChange` run:
`compileAttempts` lists the display names of every rule a `Compile` call
was made on (in order), `errorLogs` the `LogError` lines from compile
failures, `warnLogs` the `LogWarn` lines from admin-lookup failures,
`lookupCalls` the arguments of the `GetUser` calls made, and
`registerAttempts` the command-registration calls issued by the async step
(`true` for register, `false` for unregister) paired with the host result
that the code discards. -/
structure Trace where
  compileAttempts : List String
  errorLogs : List String
  warnLogs : List String
  lookupCalls : List String
  registerAttempts : List (Bool × Except String Unit)

/-- The empty trace: no calls, no log lines. -/
def Trace.empty : Trace := ⟨[], [], [], [], []⟩

/-- The compile loop of `OnConfigurationChange`: `c.Links[i].Compile()` is
attempted on every rule in order; a failure is logged via `LogError` and the
rule is left in the slice uncompiled, a success stores the compiled rule in
place.  Returns the resulting rule list, the attempts, and the error log
lines. -/
def compileAll : List Autolink → List Autolink × List String × List String
  | [] => ([], [], [])
  | l :: rest =>
    let r := compileAll rest
    match l.Compile with
    | Except.ok l' => (l' :: r.1, l.DisplayName :: r.2.1, r.2.2)
    | Except.error _ =>
      (l :: r.1, l.DisplayName :: r.2.1,
        ("Error creating autolinker " ++ l.DisplayName) :: r.2.2)

/-- Method `getConfig` from `config.go` (acquires the read lock, returns the
current snapshot). -/
def Plugin.getConfig (p : Plugin) : Config := p.conf

/-- Method `GetLinks` from `config.go`. -/
def Plugin.GetLinks (p : Plugin) : List Autolink := p.conf.Links

/-- Method `UpdateConfig` from `config.go` (acquires the write lock, applies the
mutator to the current configuration in place). -/
def Plugin.UpdateConfig (p : Plugin) (f : Config → Config) : Plugin :=
  { p with conf := f p.conf }

/-- Method `OnConfigurationChange` from `config.go`.  Load the raw configuration
(a load error is wrapped and aborts everything), compile every rule
best-effort, parse the plugin-admin list best-effort, swap the whole
configuration into the store via `UpdateConfig`, then asynchronously
register or unregister the `autolink` command with the host result
discarded (`_ =`).  Returns the Go return value, the plugin after the run,
and the trace of effects. -/
def OnConfigurationChange (api : HostAPI) (p : Plugin) :
    Except String Unit × Plugin × Trace :=
  match api.loadPluginConfiguration with
  | Except.error e =>
    (Except.error ("failed to load plugin configuration: " ++ e), p,
      Trace.empty)
  | Except.ok c0 =>
    let comp := compileAll c0.Links
    let pr := parsePluginAdminList api.getUser { c0 with Links := comp.1 }
    let p' := p.UpdateConfig (fun _ => pr.conf)
    let att : Bool × Except String Unit :=
      if c0.EnableAdminCommand then (true, api.registerCommand)
      else (false, api.unregisterCommand)
    (Except.ok (), p', ⟨comp.2.1, comp.2.2, pr.warns, pr.lookups, [att]⟩)

/-- Method `SaveLinks` from `config.go`: set the in-memory rule list via
`UpdateConfig`, convert the (already updated) configuration to a transport
map, and write it through `SavePluginConfig`, wrapping either failure.
Returns the Go return value and the plugin after the run. -/
def Plugin.SaveLinks (api : HostAPI) (links : List Autolink) (p : Plugin) :
    Except String Unit × Plugin :=
  let p' := p.UpdateConfig (fun conf => { conf with Links := links })
  match p'.getConfig.ToMap with
  | Except.error e => (Except.error ("unable convert config to map: " ++ e), p')
  | Except.ok m =>
    match api.savePluginConfig m with
    | Except.error e => (Except.error ("unable to save links: " ++ e), p')
    | Except.ok _ => (Except.ok (), p')

/-! Concrete inputs used by witnesses and counterexamples. -/

/-- Identity lookup that succeeds exactly for `u1` and `u3`. -/
def lookupU1U3 : String → Except String Unit :=
  fun s =>
    if s = "u1" ∨ s = "u3" then Except.ok () else Except.error "user not found"

/-- Identity lookup that fails on every identity. -/
def lookupNone : String → Except String Unit :=
  fun _ => Except.error "user not found"

/-- A configuration whose raw admin list is the example `"u1, u2 ,u3"`. -/
def cfgAdmins : Config := ⟨false, false, "u1, u2 ,u3", [], []⟩

/-- A configuration whose raw admin list is the single comma `","` (two
tokens, both empty after trimming). -/
def cfgComma : Config := ⟨false, false, ",", [], []⟩

/-- A rule that compiles. -/
def linkGood : Autolink := ⟨"good", "pat", "tpl", true⟩

/-- A rule whose pattern does not compile. -/
def linkBad : Autolink := ⟨"bad", "(", "tpl", false⟩

/-- A second rule that compiles. -/
def linkGood2 : Autolink := ⟨"good2", "pat2", "tpl2", true⟩

/-- A stale configuration sitting in the store before a change. -/
def cfgOld : Config := ⟨false, true, "stale", [linkGood2], ["staleAdmin"]⟩

/-- A freshly loaded configuration: admin command enabled, one rule that
fails to compile between two that succeed, no plugin admins. -/
def cfgNew : Config := ⟨true, false, "", [linkGood, linkBad, linkGood2], []⟩

/-- Host API for the witness runs: loading yields `cfgNew`, every identity
exists, saving succeeds, registration fails. -/
def apiLoadOk : HostAPI :=
  ⟨Except.ok cfgNew, fun _ => Except.ok (), fun _ => Except.ok (),
    Except.error "registration refused", Except.ok ()⟩

/-- Host API whose configuration load fails. -/
def apiLoadFail : HostAPI :=
  ⟨Except.error "malformed stored data", fun _ => Except.ok (),
    fun _ => Except.ok (), Except.ok (), Except.ok ()⟩

/-- Host API whose save call always fails. -/
def apiSaveFail : HostAPI :=
  ⟨Except.ok cfgNew, fun _ => Except.ok (),
    fun _ => Except.error "disk full", Except.ok (), Except.ok ()⟩

/-- A loaded configuration with the admin command enabled and nothing that
could produce a log line: no rules, no plugin admins. -/
def cfgClean : Config := ⟨true, false, "", [], []⟩

/-- Host API for the registration-failure run: loading yields `cfgClean`,
registration fails, everything else succeeds. -/
def apiRegFail : HostAPI :=
  ⟨Except.ok cfgClean, fun _ => Except.ok (), fun _ => Except.ok (),
    Except.error "registration refused", Except.ok ()⟩

/-! Helper lemmas. -/

/-- Membership in a set after `setInsert`. -/
theorem setInsert_mem (x k : String) (m : List String) :
    x ∈ setInsert k m ↔ x = k ∨ x ∈ m := by
  by_cases h : k ∈ m
  · simp only [setInsert, if_pos h]
    constructor
    · exact fun hx => Or.inr hx
    · rintro (rfl | hx)
      · exact h
      · exact hx
  · simp [setInsert, if_neg h, List.mem_append, or_comm]

/-- The admin loop performs one lookup per token, on the trimmed token, in
order, regardless of the lookup outcomes. -/
theorem adminLoop_lookups (g : String → Except String Unit)
    (ts acc : List String) :
    (adminLoop g ts acc).2.1 = ts.map goTrimSpace := by
  induction ts generalizing acc with
  | nil => rfl
  | cons t rest ih =>
    cases hg : g (goTrimSpace t) <;> simp [adminLoop, hg, ih]

/-- The admin loop emits exactly one warning line per failed lookup, in
order. -/
theorem adminLoop_warns (g : String → Except String Unit)
    (ts acc : List String) :
    (adminLoop g ts acc).2.2 =
      ((ts.map goTrimSpace).filter (fun t => !isOkB (g t))).map
        (fun t => "Error occurred while verifying userID " ++ t) := by
  induction ts generalizing acc with
  | nil => rfl
  | cons t rest ih =>
    cases hg : g (goTrimSpace t) <;> simp [adminLoop, hg, ih, isOkB]

/-- Membership in the admin set built by the loop: exactly the accumulator
plus the trimmed tokens whose lookup succeeded. -/
theorem adminLoop_mem (g : String → Except String Unit) (x : String)
    (ts acc : List String) :
    x ∈ (adminLoop g ts acc).1 ↔
      x ∈ acc ∨ x ∈ (ts.map goTrimSpace).filter (fun t => isOkB (g t)) := by
  induction ts generalizing acc with
  | nil => simp [adminLoop]
  | cons t rest ih =>
    cases hg : g (goTrimSpace t) with
    | error e => simp [adminLoop, hg, ih, isOkB]
    | ok u =>
      simp only [adminLoop, hg, ih, isOkB, List.map_cons]
      rw [List.filter_cons_of_pos (by simp [isOkB, hg])]
      simp [setInsert_mem]
      tauto

/-- Admin-list parsing leaves the rule list untouched. -/
theorem parse_links (g : String → Except String Unit) (conf : Config) :
    (parsePluginAdminList g conf).conf.Links = conf.Links := by
  by_cases h : conf.PluginAdmins = "" <;> simp [parsePluginAdminList, h]

/-- Admin-list parsing leaves `EnableAdminCommand` untouched. -/
theorem parse_enableAdmin (g : String → Except String Unit) (conf : Config) :
    (parsePluginAdminList g conf).conf.EnableAdminCommand =
      conf.EnableAdminCommand := by
  by_cases h : conf.PluginAdmins = "" <;> simp [parsePluginAdminList, h]

/-- Admin-list parsing leaves `PluginAdmins` untouched. -/
theorem parse_pluginAdmins (g : String → Except String Unit) (conf : Config) :
    (parsePluginAdminList g conf).conf.PluginAdmins = conf.PluginAdmins := by
  by_cases h : conf.PluginAdmins = "" <;> simp [parsePluginAdminList, h]

/-- The compile loop never drops or adds rules: in this embedding a
successful compile caches externally-invisible state, so the rule list is
returned as loaded. -/
theorem compileAll_links (ls : List Autolink) : (compileAll ls).1 = ls := by
  induction ls with
  | nil => rfl
  | cons l rest ih =>
    cases hc : l.compileOk <;>
      simp [compileAll, Autolink.Compile, hc, ih]

/-- The compile loop attempts compilation of every rule, in order,
regardless of earlier failures. -/
theorem compileAll_attempts (ls : List Autolink) :
    (compileAll ls).2.1 = ls.map Autolink.DisplayName := by
  induction ls with
  | nil => rfl
  | cons l rest ih =>
    cases hc : l.compileOk <;>
      simp [compileAll, Autolink.Compile, hc, ih]

/-- The compile loop logs exactly one error line per rule that fails to
compile, in order. -/
theorem compileAll_errorLogs (ls : List Autolink) :
    (compileAll ls).2.2 =
      (ls.filter (fun l => !l.compileOk)).map
        (fun l => "Error creating autolinker " ++ l.DisplayName) := by
  induction ls with
  | nil => rfl
  | cons l rest ih =>
    cases hc : l.compileOk <;>
      simp [compileAll, Autolink.Compile, hc, ih]

/-- Decoding inverts the rule-descriptor encoding. -/
theorem decodeAutolink_encode (l : Autolink) :
    decodeAutolink (encodeAutolink l) = some l := by
  cases l
  rfl

/-- Elementwise decoding inverts the elementwise encoding. -/
theorem decodeLinkList_encode (ls : List Autolink) :
    decodeLinkList (ls.map encodeAutolink) = some ls := by
  induction ls with
  | nil => rfl
  | cons l rest ih => simp [decodeLinkList, decodeAutolink_encode, ih]

/-- Unfolded shape of `SaveLinks`: the in-memory update happens first and
unconditionally, serialization cannot fail on this data, and the result is
decided by the host save call on the transport map of the already-updated
configuration. -/
theorem saveLinks_eq (api : HostAPI) (links : List Autolink) (p : Plugin) :
    Plugin.SaveLinks api links p =
      ((match api.savePluginConfig
            [("enableadmincommand", JValue.jbool p.conf.EnableAdminCommand),
             ("enableonupdate", JValue.jbool p.conf.EnableOnUpdate),
             ("pluginadmins", JValue.jstr p.conf.PluginAdmins),
             ("links", JValue.jarr (links.map encodeAutolink))] with
          | Except.error e => Except.error ("unable to save links: " ++ e)
          | Except.ok _ => Except.ok ()),
        p.UpdateConfig fun conf => { conf with Links := links }) := by
  simp only [Plugin.SaveLinks, Plugin.getConfig, Plugin.UpdateConfig,
    Config.ToMap]
  cases api.savePluginConfig
      [("enableadmincommand", JValue.jbool p.conf.EnableAdminCommand),
       ("enableonupdate", JValue.jbool p.conf.EnableOnUpdate),
       ("pluginadmins", JValue.jstr p.conf.PluginAdmins),
       ("links", JValue.jarr (links.map encodeAutolink))] <;> rfl

/-! Claim theorems. -/

/-- C1: whenever loading the raw configuration from the host fails,
`OnConfigurationChange` returns the wrapped load error, the previously
active configuration in the store is left unchanged, and nothing else
happens: no compile attempt, no log line, no identity lookup, no
registration attempt, no snapshot replacement (the whole result is the
wrapped error, the untouched plugin, and the empty trace). -/
theorem onConfigChange_loadFailure_aborts (api : HostAPI) (p : Plugin)
    (e : String) (h : api.loadPluginConfiguration = Except.error e) :
    OnConfigurationChange api p =
      (Except.error ("failed to load plugin configuration: " ++ e), p,
        Trace.empty) := by
  unfold OnConfigurationChange
  rw [h]

/-- C1 witness: the theorem applied to a host whose load fails with
`"malformed stored data"`, starting from the stale configuration. -/
theorem onConfigChange_loadFailure_aborts_witness :
    OnConfigurationChange apiLoadFail ⟨cfgOld⟩ =
      (Except.error
        ("failed to load plugin configuration: " ++ "malformed stored data"),
        ⟨cfgOld⟩, Trace.empty) :=
  onConfigChange_loadFailure_aborts apiLoadFail ⟨cfgOld⟩
    "malformed stored data" rfl

/-- C2: for a successfully loaded configuration `c`, a rule that fails to
compile is only logged: `OnConfigurationChange` still returns success,
compilation is attempted on every rule of `c` in order, the snapshot swap
still happens (afterwards `getConfig` reflects the newly loaded values),
and the rule-sequence length returned by `getConfig` equals the number of
rules in the loaded input. -/
theorem onConfigChange_compileFailure_nonfatal (api : HostAPI) (p : Plugin)
    (c : Config) (h : api.loadPluginConfiguration = Except.ok c) :
    (OnConfigurationChange api p).1 = Except.ok ()
    ∧ ((OnConfigurationChange api p).2.1.getConfig).Links.length =
        c.Links.length
    ∧ ((OnConfigurationChange api p).2.1.getConfig).EnableAdminCommand =
        c.EnableAdminCommand
    ∧ ((OnConfigurationChange api p).2.1.getConfig).PluginAdmins =
        c.PluginAdmins
    ∧ (OnConfigurationChange api p).2.2.compileAttempts =
        c.Links.map Autolink.DisplayName
    ∧ (OnConfigurationChange api p).2.2.errorLogs =
        (c.Links.filter (fun l => !l.compileOk)).map
          (fun l => "Error creating autolinker " ++ l.DisplayName) := by
  unfold OnConfigurationChange
  rw [h]
  simp [Plugin.getConfig, Plugin.UpdateConfig, parse_links, parse_enableAdmin,
    parse_pluginAdmins, compileAll_links, compileAll_attempts,
    compileAll_errorLogs]

/-- C2 witness: the theorem applied to a load that yields three rules of
which the middle one fails to compile. -/
theorem onConfigChange_compileFailure_nonfatal_witness :
    (OnConfigurationChange apiLoadOk ⟨cfgOld⟩).1 = Except.ok ()
    ∧ ((OnConfigurationChange apiLoadOk ⟨cfgOld⟩).2.1.getConfig).Links.length =
        cfgNew.Links.length
    ∧ ((OnConfigurationChange apiLoadOk
        ⟨cfgOld⟩).2.1.getConfig).EnableAdminCommand =
        cfgNew.EnableAdminCommand
    ∧ ((OnConfigurationChange apiLoadOk ⟨cfgOld⟩).2.1.getConfig).PluginAdmins =
        cfgNew.PluginAdmins
    ∧ (OnConfigurationChange apiLoadOk ⟨cfgOld⟩).2.2.compileAttempts =
        cfgNew.Links.map Autolink.DisplayName
    ∧ (OnConfigurationChange apiLoadOk ⟨cfgOld⟩).2.2.errorLogs =
        (cfgNew.Links.filter (fun l => !l.compileOk)).map
          (fun l => "Error creating autolinker " ++ l.DisplayName) :=
  onConfigChange_compileFailure_nonfatal apiLoadOk ⟨cfgOld⟩ cfgNew rfl

/-- C3: admin resolution splits the raw list on commas, trims each token,
performs the identity lookup on the trimmed tokens, skips exactly the
tokens whose lookup fails while emitting one warning line for each, and
keeps exactly the successfully looked-up tokens; in particular for the raw
list `"u1, u2 ,u3"` with lookups succeeding for `u1` and `u3` but failing
for `u2`, the resulting admin set is exactly `u1, u3`. -/
theorem parsePluginAdminList_resolution (g : String → Except String Unit)
    (conf : Config) (x : String) :
    (x ∈ (parsePluginAdminList g conf).conf.AdminUserIds ↔
      x ∈ ((if conf.PluginAdmins = "" then []
            else goSplit conf.PluginAdmins ',').map goTrimSpace).filter
            (fun t => isOkB (g t)))
    ∧ (parsePluginAdminList g conf).warns =
        (((if conf.PluginAdmins = "" then []
           else goSplit conf.PluginAdmins ',').map goTrimSpace).filter
          (fun t => !isOkB (g t))).map
          (fun t => "Error occurred while verifying userID " ++ t)
    ∧ (parsePluginAdminList lookupU1U3 cfgAdmins).conf.AdminUserIds =
        ["u1", "u3"] := by
  refine ⟨?_, ?_, by decide⟩
  · by_cases h : conf.PluginAdmins = ""
    · simp [parsePluginAdminList, h]
    · simp [parsePluginAdminList, h, adminLoop_mem]
  · by_cases h : conf.PluginAdmins = ""
    · simp [parsePluginAdminList, h]
    · simp [parsePluginAdminList, h, adminLoop_warns]

/-- C4 counterexample: the claim says identity lookups are performed only
for tokens that are non-empty after trimming, but for the raw admin list
`","` (two tokens, both trimming to the empty string) the code performs
two lookups, both on the empty identity. -/
theorem parsePluginAdminList_lookup_on_empty_token :
    (parsePluginAdminList lookupNone cfgComma).lookups = ["", ""]
    ∧ cfgComma.PluginAdmins = "," := by
  decide

/-- C4 amended: admin resolution performs one identity lookup per
comma-separated token of a non-empty raw list — including tokens that are
empty after trimming — in token order and on the trimmed token; when the
raw list is the empty string, the admin set is empty and zero
identity-lookup calls are performed. -/
theorem parsePluginAdminList_lookup_per_token
    (g : String → Except String Unit) (conf : Config) :
    (parsePluginAdminList g conf).lookups =
      (if conf.PluginAdmins = "" then []
       else (goSplit conf.PluginAdmins ',').map goTrimSpace)
    ∧ (parsePluginAdminList g { conf with PluginAdmins := "" }).lookups = []
    ∧ (parsePluginAdminList g
        { conf with PluginAdmins := "" }).conf.AdminUserIds = [] := by
  refine ⟨?_, by simp [parsePluginAdminList], by simp [parsePluginAdminList]⟩
  by_cases h : conf.PluginAdmins = ""
  · simp [parsePluginAdminList, h]
  · simp [parsePluginAdminList, h, adminLoop_lookups]

/-- C5: the transport map of any configuration carries exactly the keys
`enableadmincommand`, `enableonupdate`, `pluginadmins`, `links` — never a
key for the derived `AdminUserIds` set — and the host's structured reload
of that map reproduces those four fields exactly. -/
theorem toMap_roundtrip_no_adminUserIds_key (conf : Config) :
    ∃ m, conf.ToMap = Except.ok m
      ∧ m.map Prod.fst =
          ["enableadmincommand", "enableonupdate", "pluginadmins", "links"]
      ∧ "AdminUserIds" ∉ m.map Prod.fst
      ∧ ∃ c', FromMap m = some c'
          ∧ c'.EnableAdminCommand = conf.EnableAdminCommand
          ∧ c'.EnableOnUpdate = conf.EnableOnUpdate
          ∧ c'.PluginAdmins = conf.PluginAdmins
          ∧ c'.Links = conf.Links := by
  refine ⟨_, rfl, rfl, by simp,
    ⟨conf.EnableAdminCommand, conf.EnableOnUpdate, conf.PluginAdmins,
      conf.Links, []⟩, ?_, rfl, rfl, rfl, rfl⟩
  simp [FromMap, lookupJ, decodeLinkList_encode]

/-- C6 (code defect): `Sorted` documents itself as returning "a clone of
the Config, with links sorted alphabetically", but `sorted := conf` copies
the receiver pointer, so the sort is applied through the source object and
the source pointer itself is returned.  At a configuration whose two rules
are out of display-name order, the source object's `Links` differ from
their original value after the call, and the returned value is the very
same mutated object rather than an independent copy. -/
theorem sorted_mutates_source :
    ((⟨false, false, "", [linkGood2, linkBad], []⟩ : Config).Sorted).1.Links ≠
        [linkGood2, linkBad]
    ∧ ((⟨false, false, "", [linkGood2, linkBad], []⟩ : Config).Sorted).2 =
        ((⟨false, false, "", [linkGood2, linkBad], []⟩ : Config).Sorted).1 := by
  decide

/-- C7: `SaveLinks` installs exactly the given rule sequence (order
preserved) in the in-memory configuration before the host save call is
consulted — the final plugin state is precisely the in-memory update, so
`getConfig` returns the new links — and a failing host save call is
wrapped into the error returned to the caller. -/
theorem saveLinks_order_preserved_and_error_wrapped (api : HostAPI)
    (links : List Autolink) (p : Plugin) :
    (Plugin.SaveLinks api links p).2 =
        p.UpdateConfig (fun conf => { conf with Links := links })
    ∧ ((p.UpdateConfig (fun conf =>
          { conf with Links := links })).getConfig).Links = links
    ∧ ((Plugin.SaveLinks api links p).2.getConfig).Links = links
    ∧ (∀ e, api.savePluginConfig
          [("enableadmincommand", JValue.jbool p.conf.EnableAdminCommand),
           ("enableonupdate", JValue.jbool p.conf.EnableOnUpdate),
           ("pluginadmins", JValue.jstr p.conf.PluginAdmins),
           ("links", JValue.jarr (links.map encodeAutolink))] =
            Except.error e →
        (Plugin.SaveLinks api links p).1 =
          Except.error ("unable to save links: " ++ e)) := by
  refine ⟨?_, rfl, ?_, ?_⟩
  · rw [saveLinks_eq]
  · rw [saveLinks_eq]
    rfl
  · intro e he
    rw [saveLinks_eq, he]

/-- C7 witness: saving one rule through a host whose save call fails with
`"disk full"`: the in-memory configuration holds exactly that rule and the
wrapped error is returned. -/
theorem saveLinks_order_preserved_and_error_wrapped_witness :
    ((Plugin.SaveLinks apiSaveFail [linkGood] ⟨cfgOld⟩).2.getConfig).Links =
        [linkGood]
    ∧ (Plugin.SaveLinks apiSaveFail [linkGood] ⟨cfgOld⟩).1 =
        Except.error ("unable to save links: " ++ "disk full") :=
  ⟨(saveLinks_order_preserved_and_error_wrapped apiSaveFail
      [linkGood] ⟨cfgOld⟩).2.2.1,
    (saveLinks_order_preserved_and_error_wrapped apiSaveFail
      [linkGood] ⟨cfgOld⟩).2.2.2 "disk full" rfl⟩

/-- C8 counterexample: the claim says a failing asynchronous registration
step is logged; in a run whose only failure is the registration call (no
rules, no admins), the registration attempt fails yet both log streams are
empty — the discarded error is not logged anywhere. -/
theorem registration_failure_unlogged :
    (OnConfigurationChange apiRegFail ⟨cfgOld⟩).2.2.registerAttempts =
        [(true, Except.error "registration refused")]
    ∧ (OnConfigurationChange apiRegFail ⟨cfgOld⟩).2.2.errorLogs = []
    ∧ (OnConfigurationChange apiRegFail ⟨cfgOld⟩).2.2.warnLogs = [] := by
  decide

/-- C8 amended: a failure of the asynchronous command registration or
unregistration step is discarded without being logged, and it never rolls
back the already-performed configuration swap nor causes
`OnConfigurationChange` to return an error: for any registration results
`r1`, `r2`, the return value is success and the resulting plugin state and
both log streams coincide with those of the same run under the original
registration results. -/
theorem registration_failure_ignored_no_rollback (api : HostAPI)
    (p : Plugin) (c : Config) (r1 r2 : Except String Unit)
    (h : api.loadPluginConfiguration = Except.ok c) :
    (OnConfigurationChange
        { api with registerCommand := r1, unregisterCommand := r2 } p).1 =
      Except.ok ()
    ∧ (OnConfigurationChange
        { api with registerCommand := r1, unregisterCommand := r2 } p).2.1 =
        (OnConfigurationChange api p).2.1
    ∧ (OnConfigurationChange
        { api with registerCommand := r1, unregisterCommand := r2 }
        p).2.2.errorLogs =
        (OnConfigurationChange api p).2.2.errorLogs
    ∧ (OnConfigurationChange
        { api with registerCommand := r1, unregisterCommand := r2 }
        p).2.2.warnLogs =
        (OnConfigurationChange api p).2.2.warnLogs := by
  simp [OnConfigurationChange, h]

/-- C8 amended witness: the theorem applied with a failing register result
against a host whose registration would otherwise succeed. -/
theorem registration_failure_ignored_no_rollback_witness :
    (OnConfigurationChange
        { apiLoadOk with registerCommand := Except.error "refused", unregisterCommand := Except.ok () }
        ⟨cfgOld⟩).1 = Except.ok ()
    ∧ (OnConfigurationChange
        { apiLoadOk with registerCommand := Except.error "refused", unregisterCommand := Except.ok () }
        ⟨cfgOld⟩).2.1 =
        (OnConfigurationChange apiLoadOk ⟨cfgOld⟩).2.1
    ∧ (OnConfigurationChange
        { apiLoadOk with registerCommand := Except.error "refused", unregisterCommand := Except.ok () }
        ⟨cfgOld⟩).2.2.errorLogs =
        (OnConfigurationChange apiLoadOk ⟨cfgOld⟩).2.2.errorLogs
    ∧ (OnConfigurationChange
        { apiLoadOk with registerCommand := Except.error "refused", unregisterCommand := Except.ok () }
        ⟨cfgOld⟩).2.2.warnLogs =
        (OnConfigurationChange apiLoadOk ⟨cfgOld⟩).2.2.warnLogs :=
  registration_failure_ignored_no_rollback apiLoadOk ⟨cfgOld⟩ cfgNew
    (Except.error "refused") (Except.ok ()) rfl

/-- C10: when the host save call fails during `SaveLinks`, the in-memory
configuration is not rolled back: `SaveLinks` returns the wrapped save
error and yet the plugin's configuration retains the new rule sequence, so
a subsequent `getConfig` returns the new links despite the failed
persistence. -/
theorem saveLinks_failed_save_keeps_new_links (api : HostAPI)
    (links : List Autolink) (p : Plugin) (e : String)
    (he : api.savePluginConfig
        [("enableadmincommand", JValue.jbool p.conf.EnableAdminCommand),
         ("enableonupdate", JValue.jbool p.conf.EnableOnUpdate),
         ("pluginadmins", JValue.jstr p.conf.PluginAdmins),
         ("links", JValue.jarr (links.map encodeAutolink))] =
          Except.error e) :
    (Plugin.SaveLinks api links p).1 =
        Except.error ("unable to save links: " ++ e)
    ∧ ((Plugin.SaveLinks api links p).2.getConfig).Links = links := by
  rw [saveLinks_eq, he]
  exact ⟨rfl, rfl⟩

/-- C10 witness: a failed save of two rules leaves both rules in the
in-memory configuration while the wrapped error is returned. -/
theorem saveLinks_failed_save_keeps_new_links_witness :
    (Plugin.SaveLinks apiSaveFail [linkBad, linkGood2] ⟨cfgOld⟩).1 =
        Except.error ("unable to save links: " ++ "disk full")
    ∧ ((Plugin.SaveLinks apiSaveFail
        [linkBad, linkGood2] ⟨cfgOld⟩).2.getConfig).Links =
        [linkBad, linkGood2] :=
  saveLinks_failed_save_keeps_new_links apiSaveFail [linkBad, linkGood2]
    ⟨cfgOld⟩ "disk full" rfl

end AutolinkPlugin
